import Mathlib

/-!
Verification of the upload-queue state machine of `FileUpload`
(src/components, file part_000) and of the HTTP client helpers in
`src/lib/n8n.ts`, against the natural-language specification.

The TypeScript code is shallowly embedded: every collection update in the
component is a whole-list transformation (`setUploadFiles(prev => ...)`),
so each operation becomes a pure function `List UploadFile → List UploadFile`.
Asynchronous external effects (the `fetch` response, the Supabase auth user,
database query results) are passed in explicitly as parameters, and the
network calls a function performs are returned as an explicit trace.
-/

namespace Aip

/-- Metadata of a browser `File` object, as read by the component:
`file.name`, `file.size` (bytes) and `file.type` (media type). -/
structure FileData where
  name : String
  size : Nat
  type : String
deriving DecidableEq

/-- The `status` field of an `UploadFile`:
`'pending' | 'uploading' | 'success' | 'error'`. -/
inductive UploadStatus where
  | pending
  | uploading
  | success
  | error
deriving DecidableEq

/-- The `UploadFile` interface of the component: one queued file with its
id, status, progress, optional error message and editable title. -/
structure UploadFile where
  file : FileData
  id : String
  status : UploadStatus
  progress : Nat
  error : Option String
  title : String
deriving DecidableEq

/-- The `acceptedTypes` allow-list of the component, verbatim. -/
def acceptedTypes : List String :=
  ["application/pdf",
   "image/jpeg",
   "image/png",
   "image/gif",
   "application/msword",
   "application/vnd.openxmlformats-officedocument.wordprocessingml.document",
   "text/plain"]

/-- `validateFile`: returns `some message` when the file is rejected
(type not in the allow-list, or size above 50 * 1024 * 1024 bytes) and
`none` when it passes. Messages are the component's literal strings. -/
def validateFile (file : FileData) : Option String :=
  if ¬ acceptedTypes.contains file.type then
    some "不支持的文件类型。请上传PDF、图片、Word文档或文本文件。"
  else if file.size > 50 * 1024 * 1024 then
    some "文件大小不能超过50MB"
  else
    none

/-- The entry id built at enqueue time: the template literal
`Date.now() + "-" + Math.random()`. The timestamp is a number rendered in
decimal; the random draw is modelled by its string rendering, since only
the resulting string is ever used. -/
def mkEntryId (now : Nat) (rnd : String) : String :=
  toString now ++ "-" ++ rnd

/-- One entry as built inside `handleFiles` for a raw file: status is
`error` with the validation message when validation fails, `pending`
otherwise; progress 0; title defaulted to the file name. -/
def mkUploadFile (f : FileData) (now : Nat) (rnd : String) : UploadFile :=
  { file := f
    id := mkEntryId now rnd
    status := if (validateFile f).isSome then .error else .pending
    progress := 0
    error := validateFile f
    title := f.name }

/-- `handleFiles`: appends one new entry per raw file to the previous
collection (`setUploadFiles(prev => [...prev, ...newFiles])`). Each raw
file comes with the timestamp and random draw observed when its id was
built. -/
def handleFiles (prev : List UploadFile)
    (files : List (FileData × Nat × String)) : List UploadFile :=
  prev ++ files.map (fun x => mkUploadFile x.1 x.2.1 x.2.2)

/-- The derived query `pendingCount`:
`uploadFiles.filter(f => f.status === 'pending').length`. -/
def pendingCount (s : List UploadFile) : Nat :=
  (s.filter (fun f => f.status == .pending)).length

/-- The first state update of `uploadFile`: the entry with the given id is
set to `status = 'uploading', progress = 0`, all others are mapped to
themselves. -/
def setUploading (s : List UploadFile) (id : String) : List UploadFile :=
  s.map (fun f =>
    if f.id == id then { f with status := .uploading, progress := 0 } else f)

/-- One firing of the `setInterval(..., 300)` progress simulation: the
entry with the given id gains 10 progress while its progress is below 90;
every other entry (and a matching entry at 90 or above) is unchanged. -/
def progressTick (s : List UploadFile) (id : String) : List UploadFile :=
  s.map (fun f =>
    if f.id == id && f.progress < 90 then { f with progress := f.progress + 10 }
    else f)

/-- `k` firings of the progress-simulation interval. -/
def progressTicks (s : List UploadFile) (id : String) : Nat → List UploadFile
  | 0 => s
  | k + 1 => progressTick (progressTicks s id k) id

/-- The success-branch update of `uploadFile`:
`{ ...f, status: 'success', progress: 100 }` on the matching id. -/
def markSuccess (s : List UploadFile) (id : String) : List UploadFile :=
  s.map (fun f =>
    if f.id == id then { f with status := .success, progress := 100 } else f)

/-- The catch-branch update of `uploadFile`:
`{ ...f, status: 'error', progress: 0, error: message }` on the matching id. -/
def markError (s : List UploadFile) (id : String) (msg : String) : List UploadFile :=
  s.map (fun f =>
    if f.id == id then { f with status := .error, progress := 0, error := some msg }
    else f)

/-- Result record of the n8n client calls
(`N8nChatResponse`: `success`, optional `response`, optional `error`). -/
structure N8nChatResponse where
  success : Bool
  response : Option String
  error : Option String
deriving DecidableEq

/-- The message of the `Error` thrown on a failed upload result:
`new Error(result.error || '上传失败')` — the reported error string when it
is present and non-empty (JavaScript truthiness), the literal fallback
otherwise. -/
def uploadErrorMsg (result : N8nChatResponse) : String :=
  match result.error with
  | some m => if m = "" then "上传失败" else m
  | none => "上传失败"

/-- One complete run of `uploadFile` for the entry with the given id:
set it to uploading with progress 0, let the progress simulation fire
`ticks` times while the ingestion call is in flight, then — the interval
having been cleared — apply the success update when `result.success` and
the catch update with the thrown message otherwise. -/
def uploadFileRun (s : List UploadFile) (id : String) (ticks : Nat)
    (result : N8nChatResponse) : List UploadFile :=
  let s2 := progressTicks (setUploading s id) id ticks
  if result.success then markSuccess s2 id
  else markError s2 id (uploadErrorMsg result)

/-- The synchronous effect of `startUpload`: the pending entries are
snapshotted (`uploadFiles.filter(f => f.status === 'pending')`) and each
one's `uploadFile` call begins by setting that id to uploading. -/
def startUpload (s : List UploadFile) : List UploadFile :=
  ((s.filter (fun f => f.status == .pending)).map (fun f => f.id)).foldl
    setUploading s

/-- `removeFile`: drop the entry with the given id
(`prev.filter(f => f.id !== id)`). -/
def removeFile (s : List UploadFile) (id : String) : List UploadFile :=
  s.filter (fun f => f.id != id)

/-- `updateFileTitle`: set the title of the entry with the given id,
with no guard on its status. -/
def updateFileTitle (s : List UploadFile) (id : String)
    (newTitle : String) : List UploadFile :=
  s.map (fun f => if f.id == id then { f with title := newTitle } else f)

/-- `allCompleted`: the collection is non-empty and every entry is
`success` or `error`. -/
def allCompleted (s : List UploadFile) : Bool :=
  s.length > 0 && s.all (fun f => f.status == .success || f.status == .error)

/-- `hasSuccess`: some entry is `success`. -/
def hasSuccess (s : List UploadFile) : Bool :=
  s.any (fun f => f.status == .success)

/-- An HTTP response as observed through `fetch`: numeric status, status
text, and the body text returned by `response.text()`. -/
structure HttpResponse where
  status : Nat
  statusText : String
  body : String
deriving DecidableEq

/-- `response.ok` of the Fetch API: status in the range 200–299. -/
def respOk (r : HttpResponse) : Bool :=
  200 ≤ r.status && r.status ≤ 299

/-- Outcome of a `fetch` round-trip: either a response, or a thrown
transport error carrying a message. -/
def FetchOutcome := Except String HttpResponse

/-- A network call that requires the acting user's identity, recorded in
the order the embedded function performs it. -/
inductive NetworkCall where
  | chatWebhook (userId : String)
  | projectQuery (userId : String)
  | insertRecord (userId : String) (content aiContent role agentType : String)
      (projectId : Option String)
deriving DecidableEq

/-- `uploadDocumentToN8n`, from the point the multipart `fetch` resolves:
the body text is read unconditionally; the result is success carrying the
body when `response.ok` holds or when the status is exactly 500 and the
body is non-empty (the documented n8n quirk); otherwise the thrown
`文件上传失败: status statusText` error is caught and returned as a failure.
A thrown transport error is likewise caught and its message returned. -/
def uploadDocumentToN8n (outcome : Except String HttpResponse) : N8nChatResponse :=
  match outcome with
  | .error m =>
      { success := false, response := none, error := some m }
  | .ok r =>
      if respOk r || (r.status == 500 && r.body != "") then
        { success := true, response := some r.body, error := none }
      else
        { success := false, response := none
          error := some ("文件上传失败: " ++ toString r.status ++ " " ++ r.statusText) }

/-- `callN8nRAGAgent`. The resolved Supabase user is `user` (`none` when
not logged in); `outcome` is the webhook `fetch` outcome; `cleanOf` is the
post-processing of a successful body (the `ai_content` JSON extraction,
which no claim depends on). Returns the identity-requiring network calls
performed together with the `N8nChatResponse`. With no user, the thrown
`用户未登录` is caught before the webhook is contacted; with a non-ok
response, the thrown `n8n调用失败: status statusText` is caught — the body
is never consulted on that path. -/
def callN8nRAGAgent (user : Option String) (outcome : Except String HttpResponse)
    (cleanOf : String → String) : List NetworkCall × N8nChatResponse :=
  match user with
  | none => ([], { success := false, response := none, error := some "用户未登录" })
  | some uid =>
      match outcome with
      | .error m =>
          ([.chatWebhook uid], { success := false, response := none, error := some m })
      | .ok r =>
          if respOk r then
            ([.chatWebhook uid],
             { success := true, response := some (cleanOf r.body), error := none })
          else
            ([.chatWebhook uid],
             { success := false, response := none
               error := some ("n8n调用失败: " ++ toString r.status ++ " " ++ r.statusText) })

/-- A user project row (`UserProject`: id and name). -/
structure UserProject where
  id : String
  name : String
deriving DecidableEq

/-- `getUserProjects`. With no resolved user, the thrown `用户未登录` is
caught and the empty list returned, before the projects table is queried;
with a user, the query runs and a query error is likewise caught into the
empty list. -/
def getUserProjects (user : Option String)
    (query : Except String (List UserProject)) : List NetworkCall × List UserProject :=
  match user with
  | none => ([], [])
  | some uid =>
      match query with
      | .error _ => ([.projectQuery uid], [])
      | .ok ps => ([.projectQuery uid], ps)

/-- `saveChatRecord`. With no resolved user the function returns at once
(`if (!user) return`) and nothing is inserted; with a user, one row is
inserted into `chat_history` with role `user`, agent type `project_agent`
and the first project id when a list was passed (`undefined`, modelled as
`none`, when the list is empty). Insert failures are only logged, so the
returned value is `Unit` either way. -/
def saveChatRecord (user : Option String) (userMessage aiResponse : String)
    (projectId : String ⊕ List String) : List NetworkCall × Unit :=
  match user with
  | none => ([], ())
  | some uid =>
      let projectIdStr :=
        match projectId with
        | .inl p => some p
        | .inr ps => ps.head?
      ([.insertRecord uid userMessage aiResponse "user" "project_agent" projectIdStr], ())

/-! ## Helper lemmas -/

theorem validateFile_eq_none_iff (f : FileData) :
    validateFile f = none ↔ f.type ∈ acceptedTypes ∧ f.size ≤ 50 * 1024 * 1024 := by
  unfold validateFile
  by_cases h1 : acceptedTypes.contains f.type = true
  · rw [if_neg (not_not_intro h1)]
    by_cases h2 : f.size > 50 * 1024 * 1024
    · rw [if_pos h2]
      simp only [reduceCtorEq, false_iff, not_and]
      intro _ hle
      omega
    · rw [if_neg h2]
      simp only [true_iff]
      exact ⟨List.elem_iff.mp h1, by omega⟩
  · rw [if_pos h1]
    simp only [reduceCtorEq, false_iff, not_and]
    intro hm _
    exact h1 (List.elem_iff.mpr hm)

theorem validateFile_msg_ne_empty {f : FileData} {m : String}
    (h : validateFile f = some m) : m ≠ "" := by
  unfold validateFile at h
  split_ifs at h
  · injection h with h'
    subst h'
    decide
  · injection h with h'
    subst h'
    decide

theorem mkUploadFile_status_of_valid {f : FileData} (now : Nat) (rnd : String)
    (h : validateFile f = none) : (mkUploadFile f now rnd).status = .pending := by
  simp [mkUploadFile, h]

theorem mkUploadFile_status_of_invalid {f : FileData} (now : Nat) (rnd : String)
    {m : String} (h : validateFile f = some m) :
    (mkUploadFile f now rnd).status = .error := by
  simp [mkUploadFile, h]

theorem pendingCount_append (s t : List UploadFile) :
    pendingCount (s ++ t) = pendingCount s + pendingCount t := by
  simp [pendingCount, List.filter_append]

theorem pendingCount_map_mkUploadFile (files : List (FileData × Nat × String)) :
    pendingCount (files.map (fun x => mkUploadFile x.1 x.2.1 x.2.2))
      = (files.filter (fun x => (validateFile x.1).isNone)).length := by
  induction files with
  | nil => rfl
  | cons x xs ih =>
      simp only [List.map_cons, pendingCount, List.filter_cons] at *
      rcases hv : validateFile x.1 with _ | m
      · rw [mkUploadFile_status_of_valid x.2.1 x.2.2 hv] at *
        simp [ih]
      · rw [mkUploadFile_status_of_invalid x.2.1 x.2.2 hv] at *
        simp [ih]

/-- The update applied to one entry when its upload attempt begins. -/
def setU (f : UploadFile) : UploadFile :=
  { f with status := .uploading, progress := 0 }

theorem setU_setU (f : UploadFile) : setU (setU f) = setU f := rfl

theorem setU_id (f : UploadFile) : (setU f).id = f.id := rfl

theorem foldl_setUploading (ids : List String) (s : List UploadFile) :
    ids.foldl setUploading s
      = s.map (fun f => if f.id ∈ ids then setU f else f) := by
  induction ids generalizing s with
  | nil => simp
  | cons i is ih =>
      rw [List.foldl_cons, ih, setUploading, List.map_map]
      refine congrArg (fun g => List.map g s) (funext fun f => ?_)
      by_cases h : f.id = i
      · subst h
        simp [setU_setU, setU_id]
        split <;> rfl
      · have hb : (f.id == i) = false := beq_eq_false_iff_ne.mpr h
        simp only [Function.comp_apply, hb, Bool.false_eq_true, if_false,
          List.mem_cons, h, false_or]

/-! ## Claims -/

/-- C1: every file whose media type is in the allow-list and whose size is
at most 50 MiB is appended as a `pending` entry, and every other file is
appended as an `error` entry with a non-empty message; `pendingCount` grows
by exactly the number of files passing validation, and every appended entry
counts as `pending` or `error`, so their count equals the number of files
enqueued. -/
theorem c1_enqueue_validation (prev : List UploadFile)
    (files : List (FileData × Nat × String)) :
    (∀ f : FileData, validateFile f = none ↔
        f.type ∈ acceptedTypes ∧ f.size ≤ 50 * 1024 * 1024)
    ∧ handleFiles prev files
        = prev ++ files.map (fun x => mkUploadFile x.1 x.2.1 x.2.2)
    ∧ (∀ x : FileData × Nat × String,
        (validateFile x.1 = none → (mkUploadFile x.1 x.2.1 x.2.2).status = .pending)
        ∧ ∀ m, validateFile x.1 = some m →
            (mkUploadFile x.1 x.2.1 x.2.2).status = .error
            ∧ (mkUploadFile x.1 x.2.1 x.2.2).error = some m ∧ m ≠ "")
    ∧ pendingCount (handleFiles prev files)
        = pendingCount prev
          + (files.filter (fun x => (validateFile x.1).isNone)).length
    ∧ ((handleFiles prev files).drop prev.length).countP
        (fun e => e.status == .pending || e.status == .error) = files.length := by
  refine ⟨validateFile_eq_none_iff, rfl, ?_, ?_, ?_⟩
  · intro x
    refine ⟨fun h => mkUploadFile_status_of_valid _ _ h, fun m hm => ?_⟩
    exact ⟨mkUploadFile_status_of_invalid _ _ hm,
      by simp [mkUploadFile, hm], validateFile_msg_ne_empty hm⟩
  · rw [handleFiles, pendingCount_append, pendingCount_map_mkUploadFile]
  · rw [handleFiles, List.drop_left]
    rw [List.countP_eq_length.mpr, List.length_map]
    intro e he
    rcases List.mem_map.mp he with ⟨x, _, rfl⟩
    rcases hv : validateFile x.1 with _ | m
    · rw [mkUploadFile_status_of_valid x.2.1 x.2.2 hv]
      decide
    · rw [mkUploadFile_status_of_invalid x.2.1 x.2.2 hv]
      decide

/-- C2: on a collection whose ids are distinct, `startUpload` transitions
exactly the `pending` entries to `uploading` with progress reset to 0 and
maps every `success`, `error` or `uploading` entry to itself. -/
theorem c2_startAll_frame (s : List UploadFile)
    (hnd : (s.map (fun f => f.id)).Nodup) :
    startUpload s
      = s.map (fun f => if f.status = .pending
          then { f with status := .uploading, progress := 0 } else f) := by
  rw [startUpload, foldl_setUploading]
  refine List.map_congr_left (fun f hf => ?_)
  by_cases hp : f.status = .pending
  · have hfb : (f.status == UploadStatus.pending) = true := beq_iff_eq.mpr hp
    have hfp : f ∈ s.filter (fun g => g.status == UploadStatus.pending) :=
      List.mem_filter.mpr ⟨hf, hfb⟩
    rw [if_pos (List.mem_map_of_mem (fun g => g.id) hfp), if_pos hp]
    rfl
  · have hnm : f.id ∉
        (s.filter (fun g => g.status == UploadStatus.pending)).map (fun g => g.id) := by
      intro hmem
      rcases List.mem_map.mp hmem with ⟨g, hg, hgid⟩
      have hgs := (List.mem_filter.mp hg).1
      have hgp : g.status = UploadStatus.pending :=
        beq_iff_eq.mp (List.mem_filter.mp hg).2
      exact hp (List.inj_on_of_nodup_map hnd hgs hf hgid ▸ hgp)
    rw [if_neg hnm, if_neg hp]

/-- A small valid PDF file. -/
def demoPdf : FileData :=
  { name := "a.pdf", size := 1024, type := "application/pdf" }

/-- An oversize PDF file (60 MiB). -/
def demoBig : FileData :=
  { name := "b.pdf", size := 60 * 1024 * 1024, type := "application/pdf" }

/-- Witness for C1 at a concrete enqueue of one valid and one oversize
file. -/
theorem c1_enqueue_validation_witness :
    validateFile demoPdf = none
    ∧ (mkUploadFile demoPdf 1 "0.1").status = .pending
    ∧ (mkUploadFile demoBig 1 "0.2").status = .error
    ∧ pendingCount (handleFiles [] [(demoPdf, 1, "0.1"), (demoBig, 1, "0.2")]) = 1 := by
  have h := c1_enqueue_validation [] [(demoPdf, 1, "0.1"), (demoBig, 1, "0.2")]
  refine ⟨by decide, ?_, ?_, ?_⟩
  · exact (h.2.2.1 (demoPdf, 1, "0.1")).1 (by decide)
  · exact ((h.2.2.1 (demoBig, 1, "0.2")).2 "文件大小不能超过50MB" (by decide)).1
  · rw [h.2.2.2.1]
    decide

/-- A pending entry, as produced by enqueueing `demoPdf`. -/
def demoEntryPending : UploadFile :=
  { file := demoPdf, id := "1-0.1", status := .pending, progress := 0,
    error := none, title := "a.pdf" }

/-- An error entry, as produced by enqueueing the oversize `demoBig`. -/
def demoEntryError : UploadFile :=
  { file := demoBig, id := "1-0.2", status := .error, progress := 0,
    error := some "文件大小不能超过50MB", title := "b.pdf" }

theorem mem_map_ite_update {u : UploadFile → UploadFile}
    {s : List UploadFile} {id : String} {f : UploadFile}
    (hf : f ∈ s.map (fun g => if g.id == id then u g else g)) (hfid : f.id = id) :
    ∃ g, f = u g := by
  rcases List.mem_map.mp hf with ⟨g, _, rfl⟩
  by_cases hgid : g.id = id
  · exact ⟨g, if_pos (beq_iff_eq.mpr hgid)⟩
  · rw [if_neg (by simp [hgid])] at hfid
    exact absurd hfid hgid

/-- A successful ingestion result. -/
def demoSuccessResult : N8nChatResponse :=
  { success := true, response := some "ok", error := none }

/-- A failed ingestion result with a service-reported message. -/
def demoFailResult : N8nChatResponse :=
  { success := false, response := none, error := some "处理失败" }

/-- C3: when the ingestion call reports success, the upload attempt —
with the progress interval cleared after any number of simulation ticks —
leaves every entry carrying the attempt's id in the terminal state
`status = success, progress = 100`. -/
theorem c3_success_terminal (s : List UploadFile) (id : String) (ticks : Nat)
    (result : N8nChatResponse) (hres : result.success = true) :
    ∀ f ∈ uploadFileRun s id ticks result, f.id = id →
      f.status = .success ∧ f.progress = 100 := by
  intro f hf hfid
  have hrun : uploadFileRun s id ticks result
      = markSuccess (progressTicks (setUploading s id) id ticks) id := by
    simp [uploadFileRun, hres]
  rw [hrun, markSuccess] at hf
  rcases @mem_map_ite_update
      (fun g => { g with status := UploadStatus.success, progress := 100 })
      _ _ _ hf hfid with ⟨g, rfl⟩
  exact ⟨rfl, rfl⟩

/-- Witness for C3: one pending entry, three ticks, success result. -/
theorem c3_success_terminal_witness :
    ((uploadFileRun [demoEntryPending] "1-0.1" 3 demoSuccessResult).headD
        demoEntryPending).status = .success
    ∧ ((uploadFileRun [demoEntryPending] "1-0.1" 3 demoSuccessResult).headD
        demoEntryPending).progress = 100 :=
  c3_success_terminal [demoEntryPending] "1-0.1" 3 demoSuccessResult rfl _
    (by decide) (by decide)

/-- C4: when the ingestion call fails with message `M` (whether the
service reported the failure or the call threw a transport error, which
`uploadDocumentToN8n` converts into `{success: false, error: M}`), the
upload attempt leaves every entry carrying the attempt's id in the state
`status = error, progress = 0, error = M`, and the run makes no further
attempt. -/
theorem c4_failure_terminal (s : List UploadFile) (id : String) (ticks : Nat)
    (M : String) (hM : M ≠ "") (result : N8nChatResponse)
    (hs : result.success = false) (he : result.error = some M) :
    uploadDocumentToN8n (Except.error M)
        = { success := false, response := none, error := some M }
    ∧ ∀ f ∈ uploadFileRun s id ticks result, f.id = id →
        f.status = .error ∧ f.progress = 0 ∧ f.error = some M := by
  refine ⟨rfl, ?_⟩
  intro f hf hfid
  have hmsg : uploadErrorMsg result = M := by
    rw [uploadErrorMsg, he]
    exact if_neg hM
  have hrun : uploadFileRun s id ticks result
      = markError (progressTicks (setUploading s id) id ticks) id M := by
    simp [uploadFileRun, hs, hmsg]
  rw [hrun, markError] at hf
  rcases @mem_map_ite_update
      (fun g => { g with status := UploadStatus.error, progress := 0, error := some M })
      _ _ _ hf hfid with ⟨g, rfl⟩
  exact ⟨rfl, rfl, rfl⟩

/-- Witness for C4: one pending entry, two ticks, failed result. -/
theorem c4_failure_terminal_witness :
    uploadDocumentToN8n (Except.error "处理失败")
        = { success := false, response := none, error := some "处理失败" }
    ∧ ((uploadFileRun [demoEntryPending] "1-0.1" 2 demoFailResult).headD
        demoEntryPending).status = .error
    ∧ ((uploadFileRun [demoEntryPending] "1-0.1" 2 demoFailResult).headD
        demoEntryPending).progress = 0
    ∧ ((uploadFileRun [demoEntryPending] "1-0.1" 2 demoFailResult).headD
        demoEntryPending).error = some "处理失败" := by
  have h := c4_failure_terminal [demoEntryPending] "1-0.1" 2 "处理失败"
    (by decide) demoFailResult rfl rfl
  exact ⟨h.1, h.2 _ (by decide) (by decide)⟩

/-- C6: during an upload attempt the simulation ticks alone drive an
entry's progress to `min (10 * k) 90`, never to 100; and on any collection
whose progress values are below 100, any number of ticks keeps every
progress value below 100 — progress reaches 100 only through the success
path of `uploadFileRun` (theorem for C3). -/
theorem c6_progress_ceiling (s : List UploadFile) (id : String) (k : Nat) :
    (∀ f ∈ progressTicks (setUploading s id) id k,
        f.id = id → f.progress = min (10 * k) 90 ∧ f.status = .uploading)
    ∧ ∀ t : List UploadFile, (∀ f ∈ t, f.progress < 100) →
        ∀ f ∈ progressTicks t id k, f.progress < 100 := by
  constructor
  · induction k with
    | zero =>
        intro f hf hfid
        rw [progressTicks, setUploading] at hf
        rcases @mem_map_ite_update
            (fun g => { g with status := UploadStatus.uploading, progress := 0 })
            _ _ _ hf hfid with ⟨g, rfl⟩
        exact ⟨rfl, rfl⟩
    | succ k ih =>
        intro f hf hfid
        rw [progressTicks, progressTick] at hf
        rcases List.mem_map.mp hf with ⟨g, hg, rfl⟩
        by_cases hgi : g.id = id
        · by_cases hgp : g.progress < 90
          · rw [if_pos (by simp [hgi, hgp])] at hfid ⊢
            rcases ih g hg hgi with ⟨hp, hst⟩
            refine ⟨?_, hst⟩
            show g.progress + 10 = min (10 * (k + 1)) 90
            omega
          · rw [if_neg (by simp [hgi, hgp])] at hfid ⊢
            rcases ih g hg hgi with ⟨hp, hst⟩
            refine ⟨?_, hst⟩
            omega
        · rw [if_neg (by simp [hgi])] at hfid ⊢
          exact absurd hfid hgi
  · induction k with
    | zero =>
        intro t ht f hf
        rw [progressTicks] at hf
        exact ht f hf
    | succ k ih =>
        intro t ht f hf
        rw [progressTicks, progressTick] at hf
        rcases List.mem_map.mp hf with ⟨g, hg, rfl⟩
        by_cases hgi : g.id = id
        · by_cases hgp : g.progress < 90
          · rw [if_pos (by simp [hgi, hgp])]
            show g.progress + 10 < 100
            omega
          · rw [if_neg (by simp [hgi, hgp])]
            exact ih t ht g hg
        · rw [if_neg (by simp [hgi])]
          exact ih t ht g hg

/-- Witness for C6: one entry, twelve ticks — every progress value in the
resulting collection is still below 100. -/
theorem c6_progress_ceiling_witness :
    (progressTicks (setUploading [demoEntryPending] "1-0.1") "1-0.1" 12).all
      (fun f => decide (f.progress < 100)) = true := by
  have h := (c6_progress_ceiling [demoEntryPending] "1-0.1" 12).2
      (setUploading [demoEntryPending] "1-0.1") (by decide)
  rw [List.all_eq_true]
  intro f hf
  simpa using h f hf

/-- Witness for C2 on a concrete two-entry collection: the pending entry
becomes uploading, the error entry is untouched. -/
theorem c2_startAll_frame_witness :
    startUpload [demoEntryPending, demoEntryError]
      = [{ demoEntryPending with status := .uploading, progress := 0 },
         demoEntryError] := by
  have h := c2_startAll_frame [demoEntryPending, demoEntryError] (by decide)
  rw [h]
  decide

/-- C5 counterexample: a 404 transport-level failure status with a
non-empty response body is NOT treated as success — the result is a
failure, so the claimed leniency does not extend to every failure
status. -/
theorem c5_counterexample :
    respOk { status := 404, statusText := "Not Found", body := "processed" } = false
    ∧ ({ status := 404, statusText := "Not Found", body := "processed" }
        : HttpResponse).body ≠ ""
    ∧ (uploadDocumentToN8n (Except.ok
        { status := 404, statusText := "Not Found", body := "processed" })).success
        = false := by
  refine ⟨rfl, by decide, rfl⟩

/-- C5 (amended): among transport-level failure statuses, exactly a 500
with a non-empty body is treated as success carrying the body as the
response payload; any other failure status yields a failure regardless of
the body, as does a 500 with an empty body. -/
theorem c5_amended_leniency (r : HttpResponse) (hko : respOk r = false) :
    (r.status = 500 → r.body ≠ "" →
      uploadDocumentToN8n (Except.ok r)
        = { success := true, response := some r.body, error := none })
    ∧ (r.status ≠ 500 → (uploadDocumentToN8n (Except.ok r)).success = false)
    ∧ (r.body = "" → (uploadDocumentToN8n (Except.ok r)).success = false) := by
  refine ⟨?_, ?_, ?_⟩
  · intro h500 hbody
    simp [uploadDocumentToN8n, hko, h500, hbody]
  · intro hne
    simp [uploadDocumentToN8n, hko, hne]
  · intro hbody
    simp [uploadDocumentToN8n, hko, hbody]

/-- Witness for the amended C5: a 500 with body `"done"` is success with
that body as the payload. -/
theorem c5_amended_leniency_witness :
    uploadDocumentToN8n (Except.ok
        { status := 500, statusText := "Internal Server Error", body := "done" })
      = { success := true, response := some "done", error := none } :=
  (c5_amended_leniency
      { status := 500, statusText := "Internal Server Error", body := "done" }
      (by decide)).1 rfl (by decide)

theorem titles_of_map (v : UploadFile → UploadFile)
    (hv : ∀ f, (v f).title = f.title) (s : List UploadFile) :
    (s.map v).map (fun f => f.title) = s.map (fun f => f.title) := by
  rw [List.map_map]
  exact List.map_congr_left (fun f _ => hv f)

theorem titles_setUploading (s : List UploadFile) (id : String) :
    (setUploading s id).map (fun f => f.title) = s.map (fun f => f.title) :=
  titles_of_map _ (fun f => by split <;> rfl) s

theorem titles_progressTicks (s : List UploadFile) (id : String) (k : Nat) :
    (progressTicks s id k).map (fun f => f.title) = s.map (fun f => f.title) := by
  induction k with
  | zero => rfl
  | succ k ih =>
      rw [progressTicks, progressTick,
        titles_of_map _ (fun f => by split <;> rfl), ih]

theorem titles_uploadFileRun (s : List UploadFile) (id : String) (k : Nat)
    (res : N8nChatResponse) :
    (uploadFileRun s id k res).map (fun f => f.title) = s.map (fun f => f.title) := by
  rcases hres : res.success with _ | _
  · have : uploadFileRun s id k res
        = markError (progressTicks (setUploading s id) id k) id
            (uploadErrorMsg res) := by
      simp [uploadFileRun, hres]
    rw [this, markError, titles_of_map _ (fun f => by split <;> rfl),
      titles_progressTicks, titles_setUploading]
  · have : uploadFileRun s id k res
        = markSuccess (progressTicks (setUploading s id) id k) id := by
      simp [uploadFileRun, hres]
    rw [this, markSuccess, titles_of_map _ (fun f => by split <;> rfl),
      titles_progressTicks, titles_setUploading]

theorem titles_startUpload (s : List UploadFile) :
    (startUpload s).map (fun f => f.title) = s.map (fun f => f.title) := by
  rw [startUpload, foldl_setUploading]
  exact titles_of_map _ (fun f => by split <;> rfl) s

/-- An entry mid-upload, whose title the interface locks but the state
update path does not. -/
def demoUploadingEntry : UploadFile :=
  { file := demoPdf, id := "u1", status := .uploading, progress := 30,
    error := none, title := "original" }

/-- C7 counterexample: `updateFileTitle` changes the title of an entry
whose status is `uploading`, so the title of an uploading entry is not
immutable. -/
theorem c7_counterexample :
    demoUploadingEntry.status = .uploading
    ∧ demoUploadingEntry.title = "original"
    ∧ (updateFileTitle [demoUploadingEntry] "u1" "renamed").map (fun f => f.title)
        = ["renamed"] := by
  refine ⟨rfl, rfl, by decide⟩

/-- C7 (amended): `updateFileTitle` sets the title of the matching entry
whatever its status — the manager has no status guard — while every other
operation leaves every surviving entry's title unchanged: `startUpload`,
a full `uploadFileRun`, `removeFile` (survivors are unmodified entries of
the original collection) and `handleFiles` (the previous entries are kept
verbatim). -/
theorem c7_amended_title (s : List UploadFile) (id t : String) (k : Nat)
    (res : N8nChatResponse) (files : List (FileData × Nat × String)) :
    (∀ f ∈ s, f.id = id → { f with title := t } ∈ updateFileTitle s id t)
    ∧ (startUpload s).map (fun f => f.title) = s.map (fun f => f.title)
    ∧ (uploadFileRun s id k res).map (fun f => f.title) = s.map (fun f => f.title)
    ∧ (∀ f ∈ removeFile s id, f ∈ s)
    ∧ (handleFiles s files).take s.length = s := by
  refine ⟨?_, titles_startUpload s, titles_uploadFileRun s id k res, ?_, ?_⟩
  · intro f hf hfid
    have heq : (fun g => if g.id == id then { g with title := t } else g) f
        = { f with title := t } := if_pos (beq_iff_eq.mpr hfid)
    exact heq ▸ List.mem_map_of_mem _ hf
  · intro f hf
    exact List.mem_of_mem_filter hf
  · rw [handleFiles, List.take_left]

/-- Witness for the amended C7: the uploading entry is retitled, and
`startUpload` keeps titles. -/
theorem c7_amended_title_witness :
    ({ demoUploadingEntry with title := "renamed" }
        ∈ updateFileTitle [demoUploadingEntry] "u1" "renamed")
    ∧ (startUpload [demoEntryPending]).map (fun f => f.title)
        = [demoEntryPending].map (fun f => f.title) := by
  have h := c7_amended_title [demoUploadingEntry] "u1" "renamed" 0
    demoSuccessResult []
  refine ⟨h.1 demoUploadingEntry (by decide) rfl, ?_⟩
  exact (c7_amended_title [demoEntryPending] "u1" "renamed" 0
    demoSuccessResult []).2.1

theorem string_append_left_cancel {a b c : String} (h : a ++ b = a ++ c) :
    b = c := by
  have hd : (a ++ b).data = (a ++ c).data := congrArg String.data h
  rw [String.data_append, String.data_append] at hd
  exact String.ext (List.append_cancel_left hd)

/-- A small valid plain-text file. -/
def demoTxt : FileData :=
  { name := "n.txt", size := 10, type := "text/plain" }

/-- C8 counterexample: two distinct files enqueued in the same instant
(same `Date.now()` value) with the same `Math.random()` draw receive the
same id — the scheme does not make ids unique. -/
theorem c8_counterexample :
    (handleFiles [] [(demoPdf, 5, "0.5"), (demoTxt, 5, "0.5")]).length = 2
    ∧ ¬ ((handleFiles [] [(demoPdf, 5, "0.5"), (demoTxt, 5, "0.5")]).map
          (fun f => f.id)).Nodup
    ∧ (handleFiles [] [(demoPdf, 5, "0.5"), (demoTxt, 5, "0.5")]).getD 0
          demoEntryPending
        ≠ (handleFiles [] [(demoPdf, 5, "0.5"), (demoTxt, 5, "0.5")]).getD 1
          demoEntryPending := by
  refine ⟨rfl, by decide, by decide⟩

/-- C8 (amended): ids assigned in one enqueue are pairwise distinct
whenever the random draws are pairwise distinct — in particular for files
enqueued in the same instant (a common timestamp `now`); uniqueness rests
on the random draws, not on the scheme itself. -/
theorem c8_amended_id_uniqueness (prev : List UploadFile) (now : Nat)
    (files : List (FileData × Nat × String))
    (hnow : ∀ x ∈ files, x.2.1 = now)
    (hrnd : (files.map (fun x => x.2.2)).Nodup) :
    (((handleFiles prev files).drop prev.length).map (fun f => f.id)).Nodup := by
  rw [handleFiles, List.drop_left, List.map_map]
  have h1 : ((fun f => f.id) ∘ fun x : FileData × Nat × String =>
      mkUploadFile x.1 x.2.1 x.2.2)
      = fun x : FileData × Nat × String => mkEntryId x.2.1 x.2.2 := rfl
  rw [h1]
  have h2 : files.map (fun x => mkEntryId x.2.1 x.2.2)
      = files.map (fun x => mkEntryId now x.2.2) :=
    List.map_congr_left (fun x hx => by rw [hnow x hx])
  have h3 : files.map (fun x => mkEntryId now x.2.2)
      = (files.map (fun x => x.2.2)).map (fun r => mkEntryId now r) := by
    rw [List.map_map]
    rfl
  rw [h2, h3]
  refine List.Nodup.map (fun r1 r2 hr => ?_) hrnd
  exact string_append_left_cancel hr

/-- Witness for the amended C8: same instant, distinct random draws,
distinct ids. -/
theorem c8_amended_id_uniqueness_witness :
    (((handleFiles [] [(demoPdf, 7, "0.25"), (demoTxt, 7, "0.75")]).drop 0).map
        (fun f => f.id)).Nodup :=
  c8_amended_id_uniqueness [] 7 [(demoPdf, 7, "0.25"), (demoTxt, 7, "0.75")]
    (by decide) (by decide)

/-- C9 counterexample: with no resolvable identity, `getUserProjects`
performs no identity-requiring call but returns the empty list — exactly
the value an authenticated user with zero projects receives — and
`saveChatRecord` returns plain unit; neither surfaces any failure
condition to its caller, so the unauthenticated condition is not
"surfaced as an immediate failure" for these operations. -/
theorem c9_counterexample :
    (getUserProjects none (Except.ok [{ id := "p1", name := "proj" }])).2 = []
    ∧ (getUserProjects (some "u1") (Except.ok [])).2 = []
    ∧ (getUserProjects none (Except.ok [{ id := "p1", name := "proj" }])).2
        = (getUserProjects (some "u1") (Except.ok [])).2
    ∧ saveChatRecord none "你好" "回复" (Sum.inl "p1") = ([], ()) := by
  exact ⟨rfl, rfl, rfl, rfl⟩

/-- C9 (amended): with no resolvable identity, each of the three
operations returns at once, performing no identity-requiring network call
and executing nothing of its body: the chat call surfaces
`{success: false, error: 用户未登录}`, while the project listing returns
the empty list and the record save returns unit, neither carrying a
failure indication. -/
theorem c9_amended_fail_fast (outcome : Except String HttpResponse)
    (cleanOf : String → String) (q : Except String (List UserProject))
    (um ar : String) (pid : String ⊕ List String) :
    callN8nRAGAgent none outcome cleanOf
        = ([], { success := false, response := none, error := some "用户未登录" })
    ∧ getUserProjects none q = ([], [])
    ∧ saveChatRecord none um ar pid = ([], ()) :=
  ⟨rfl, rfl, rfl⟩

/-- C10: whenever the chat webhook responds with a non-ok status, the
call returns a failure whose error message carries the status code, and
the response body is never consulted — the 500-with-body leniency of the
upload call does not apply here. -/
theorem c10_chat_no_leniency (uid : String) (r : HttpResponse)
    (cleanOf : String → String) (hko : respOk r = false) :
    callN8nRAGAgent (some uid) (Except.ok r) cleanOf
      = ([NetworkCall.chatWebhook uid],
         { success := false, response := none
           error := some ("n8n调用失败: " ++ toString r.status ++ " " ++ r.statusText) }) := by
  simp [callN8nRAGAgent, hko]

/-- Witness for C10: a 500 with a non-empty body is still a failure for
the chat call. -/
theorem c10_chat_no_leniency_witness :
    (callN8nRAGAgent (some "u1")
        (Except.ok { status := 500, statusText := "Internal Server Error", body := "done" })
        (fun s => s)).2.success = false := by
  rw [c10_chat_no_leniency "u1"
    { status := 500, statusText := "Internal Server Error", body := "done" }
    (fun s => s) (by decide)]

end Aip




